import Mathlib

/-!
Verification of the personal finance ledger (`src/main.py`).

The embedding models the two core classes, `Transaction` and
`FinanceTracker`, and their operations, translated directly from the
Python source.  Python `float` amounts are idealised as exact integers
(`Int`): every operation of the core is purely additive, so the
algebraic structure is preserved; no claim depends on rounding.

Persistence is modelled explicitly: the JSON file on disk is a value of
type `DiskFile` (absent, unparsable, or a list of records), and each
operation that touches the disk threads it through.  A Python dict read
from JSON is modelled as a `Record` with one `Option` field per required
key, so a missing key is representable.  Exceptions raised by the file
system are modelled by two environment-chosen parameters of
`save_data`: the boolean `writeOk` says whether the write raised
(permissions, disk full, ...), and `failDisk` is the state the file is
left in when it did.  `open(path, 'w')` truncates the file before
`json.dump` streams into it, so a failed write may leave the previous
contents (`open` itself raised), or a truncated prefix of the new
serialisation — empty or otherwise unparsable; `failDisk` ranges over
all of `DiskFile`, an over-approximation of those outcomes.  In every
case `save_data` catches the exception (its body is wrapped in
`try/except`), so it never surfaces to the caller.
-/

/-- One financial event, `class Transaction` (src/main.py lines 11-23):
fields `amount`, `category`, `description`, `date`.  The constructor's
`date=None` default (filled with today's date) is modelled by passing
the current date string explicitly as `now` at each construction site. -/
structure Transaction where
  amount : Int
  category : String
  description : String
  date : String
deriving DecidableEq

/-- A JSON object as read from / written to the persistence file.
Each of the four required keys may be absent (`none`), which models a
malformed record. -/
structure Record where
  amount? : Option Int
  category? : Option String
  description? : Option String
  date? : Option String
deriving DecidableEq

/-- `Transaction.to_dict` (lines 25-32): serialise to a record with all
four keys present, values unchanged. -/
def Transaction.to_dict (t : Transaction) : Record :=
  ⟨some t.amount, some t.category, some t.description, some t.date⟩

/-- `Transaction.from_dict` (lines 34-42): build a transaction from a
record; in Python a missing key raises `KeyError`, modelled by `none`. -/
def Transaction.from_dict (data : Record) : Option Transaction :=
  match data.amount?, data.category?, data.description?, data.date? with
  | some a, some c, some d, some dt => some ⟨a, c, d, dt⟩
  | _, _, _, _ => none

/-- The state of the persistence file (`transactions.json`). -/
inductive DiskFile where
  /-- `os.path.exists` is false: no file. -/
  | missing
  /-- The file exists but `json.load` raises (invalid JSON, or not a
  list of objects). -/
  | unparsable
  /-- The file parses to a list of JSON objects. -/
  | records (recs : List Record)
deriving DecidableEq

/-- The in-memory side of `class FinanceTracker`: its `transactions`
list (the `data_file` path plays no role in the model, there is one
file). -/
structure FinanceTracker where
  transactions : List Transaction
deriving DecidableEq

/-- A tracker together with the persistence file it reads and writes. -/
structure World where
  tracker : FinanceTracker
  disk : DiskFile
deriving DecidableEq

/-- The list comprehension in `load_data` (line 59-61):
`[Transaction.from_dict(t) for t in data]`, which raises on the first
malformed record; `none` signals that exception. -/
def parse_records : List Record → Option (List Transaction)
  | [] => some []
  | r :: rs =>
    match Transaction.from_dict r, parse_records rs with
    | some t, some ts => some (t :: ts)
    | _, _ => none

/-- `FinanceTracker.load_data` (lines 52-68): if the file is missing,
start empty; if reading, parsing, or converting any record raises, the
`except` clause catches it and resets `self.transactions = []`;
otherwise the parsed transactions.  Returns the resulting
`transactions` list of a freshly constructed tracker. -/
def FinanceTracker.load_data : DiskFile → List Transaction
  | DiskFile.missing => []
  | DiskFile.unparsable => []
  | DiskFile.records recs =>
    match parse_records recs with
    | some ts => ts
    | none => []

/-- `FinanceTracker.save_data` (lines 70-79): overwrite the file with
the serialised sequence.  The body is wrapped in `try/except`, so a
failed write (`writeOk = false`) is caught inside `save_data` and no
exception reaches the caller; the file is then left in whatever state
the failure produced (`failDisk`): its previous contents if `open`
itself raised, or a truncated partial write — `open('w')` truncates
before `json.dump` runs — if the dump raised midway. -/
def FinanceTracker.save_data (writeOk : Bool) (failDisk : DiskFile)
    (txs : List Transaction) : DiskFile :=
  if writeOk then DiskFile.records (txs.map Transaction.to_dict) else failDisk

/-- `FinanceTracker.add_transaction` (lines 81-92): construct a
transaction dated `now`, append it, call `save_data`, return `True`.
Nothing in the `try` body can raise (construction only assigns fields
and `save_data` catches its own exceptions), so the `except` branch
returning `False` is unreachable. -/
def FinanceTracker.add_transaction (writeOk : Bool) (failDisk : DiskFile)
    (now : String) (w : World) (amount : Int)
    (category description : String) : World × Bool :=
  let t : Transaction := ⟨amount, category, description, now⟩
  let txs := w.tracker.transactions ++ [t]
  (⟨⟨txs⟩, FinanceTracker.save_data writeOk failDisk txs⟩, true)

/-- `FinanceTracker.get_balance` (lines 94-97): sum of all amounts. -/
def FinanceTracker.get_balance (t : FinanceTracker) : Int :=
  (t.transactions.map Transaction.amount).sum

/-- `FinanceTracker.get_transactions_by_category` (lines 99-101). -/
def FinanceTracker.get_transactions_by_category (t : FinanceTracker)
    (category : String) : List Transaction :=
  t.transactions.filter (fun tx => tx.category == category)

/-- `totals[category] += transaction.amount` (line 110) acting on one
entry of the dict: add `amount` to the entry whose key is `category`,
leave the others alone. -/
def updAmount (category : String) (amount : Int) (p : String × Int) :
    String × Int :=
  if p.1 == category then (p.1, p.2 + amount) else p

/-- The loop body of `get_category_totals` (lines 106-110): if the
category is not yet a key, insert it with value `0`; then add the
amount to its entry.  The Python dict is modelled as an association
list in key-insertion order. -/
def dictAdd (totals : List (String × Int)) (category : String)
    (amount : Int) : List (String × Int) :=
  if totals.any (fun p => p.1 == category) then
    totals.map (updAmount category amount)
  else
    totals ++ [(category, 0 + amount)]

/-- `FinanceTracker.get_category_totals` (lines 103-111). -/
def FinanceTracker.get_category_totals (t : FinanceTracker) :
    List (String × Int) :=
  t.transactions.foldl (fun totals tx => dictAdd totals tx.category tx.amount) []

/-- `FinanceTracker.delete_transaction` (lines 113-126): bounds check
`0 <= index < len`, on success `pop(index)` then `save_data` and return
`True`; out of range returns `False` without mutation.  The index is an
`Int` because a Python caller may pass any integer. -/
def FinanceTracker.delete_transaction (writeOk : Bool)
    (failDisk : DiskFile) (w : World) (index : Int) : World × Bool :=
  if 0 ≤ index ∧ index < (w.tracker.transactions.length : Int) then
    let txs := w.tracker.transactions.eraseIdx index.toNat
    (⟨⟨txs⟩, FinanceTracker.save_data writeOk failDisk txs⟩, true)
  else
    (w, false)

/-- Lookup in the association list modelling the Python dict: the value
stored under a key, if present. -/
def lookupTotal (key : String) : List (String × Int) → Option Int
  | [] => none
  | p :: ps => if p.1 == key then some p.2 else lookupTotal key ps

/-- Run a sequence of `add_transaction` calls (amount, category,
description), all dated `now`, threading the world through. -/
def run_adds (writeOk : Bool) (failDisk : DiskFile) (now : String)
    (w : World) (items : List (Int × String × String)) : World :=
  items.foldl
    (fun acc i =>
      (FinanceTracker.add_transaction writeOk failDisk now acc i.1 i.2.1
        i.2.2).1) w


/-! ### Helper lemmas -/

/-- Serialising a list of transactions and parsing it back succeeds and
returns the same list. -/
theorem parse_records_to_dict (txs : List Transaction) :
    parse_records (txs.map Transaction.to_dict) = some txs := by
  induction txs with
  | nil => rfl
  | cons t ts ih => simp [parse_records, Transaction.from_dict, Transaction.to_dict, ih]

/-- `load_data` inverts `save_data` when the write succeeds. -/
theorem load_data_save_data (txs : List Transaction) (failDisk : DiskFile) :
    FinanceTracker.load_data (FinanceTracker.save_data true failDisk txs) =
      txs := by
  simp [FinanceTracker.save_data, FinanceTracker.load_data, parse_records_to_dict]

theorem updAmount_of_eq {c : String} (a : Int) {p : String × Int}
    (h : p.1 = c) : updAmount c a p = (p.1, p.2 + a) := by
  simp [updAmount, h]

theorem updAmount_of_ne {c : String} (a : Int) {p : String × Int}
    (h : p.1 ≠ c) : updAmount c a p = p := by
  simp [updAmount, h]

theorem any_key_iff (l : List (String × Int)) (c : String) :
    l.any (fun p => p.1 == c) = true ↔ ∃ p ∈ l, p.1 = c := by
  simp

theorem lookupTotal_map_updAmount (l : List (String × Int)) (c : String)
    (a : Int) :
    lookupTotal c (l.map (updAmount c a)) = (lookupTotal c l).map (· + a) := by
  induction l with
  | nil => rfl
  | cons p ps ih =>
    by_cases h : p.1 = c
    · simp [lookupTotal, updAmount_of_eq a h, h]
    · simp [lookupTotal, updAmount_of_ne a h, h, ih]

theorem lookupTotal_map_updAmount_ne (l : List (String × Int)) {c X : String}
    (a : Int) (h : c ≠ X) :
    lookupTotal X (l.map (updAmount c a)) = lookupTotal X l := by
  induction l with
  | nil => rfl
  | cons p ps ih =>
    by_cases hp : p.1 = c
    · have hX : p.1 ≠ X := fun hc => h (hp ▸ hc)
      simp [lookupTotal, updAmount_of_eq a hp, hX, ih]
    · by_cases hX : p.1 = X <;>
        simp [lookupTotal, updAmount_of_ne a hp, hX, ih]

theorem lookupTotal_append (l₁ l₂ : List (String × Int)) (X : String) :
    lookupTotal X (l₁ ++ l₂) =
      ((lookupTotal X l₁).rec (lookupTotal X l₂) (fun v => some v) :
        Option Int) := by
  induction l₁ with
  | nil => rfl
  | cons p ps ih =>
    by_cases h : p.1 = X <;> simp [lookupTotal, h, ih]

theorem lookupTotal_eq_none (l : List (String × Int)) (X : String)
    (h : ∀ p ∈ l, p.1 ≠ X) : lookupTotal X l = none := by
  induction l with
  | nil => rfl
  | cons p ps ih =>
    have h1 : p.1 ≠ X := h p (List.mem_cons_self p ps)
    simp [lookupTotal, h1, ih fun q hq => h q (List.mem_cons_of_mem p hq)]

theorem lookupTotal_isSome (l : List (String × Int)) (c : String)
    (h : ∃ p ∈ l, p.1 = c) : ∃ v, lookupTotal c l = some v := by
  induction l with
  | nil => simp at h
  | cons p ps ih =>
    by_cases hp : p.1 = c
    · exact ⟨p.2, by simp [lookupTotal, hp]⟩
    · obtain ⟨q, hq, hqc⟩ := h
      rcases List.mem_cons.1 hq with rfl | hq'
      · exact absurd hqc hp
      · obtain ⟨v, hv⟩ := ih ⟨q, hq', hqc⟩
        exact ⟨v, by simp [lookupTotal, hp, hv]⟩

/-- After `dictAdd`, the touched key holds its previous value (defaulting
to `0`) plus the amount. -/
theorem lookupTotal_dictAdd_self (totals : List (String × Int)) (c : String)
    (a : Int) :
    lookupTotal c (dictAdd totals c a) =
      some ((lookupTotal c totals).getD 0 + a) := by
  unfold dictAdd
  by_cases hany : totals.any (fun p => p.1 == c) = true
  · rw [if_pos hany, lookupTotal_map_updAmount]
    obtain ⟨v, hv⟩ := lookupTotal_isSome totals c ((any_key_iff totals c).1 hany)
    simp [hv]
  · rw [if_neg hany, lookupTotal_append]
    have hall : ∀ p ∈ totals, p.1 ≠ c := by
      intro p hp
      intro hpc
      exact hany ((any_key_iff totals c).2 ⟨p, hp, hpc⟩)
    rw [lookupTotal_eq_none totals c hall]
    simp [lookupTotal]

/-- `dictAdd` leaves every other key's entry unchanged. -/
theorem lookupTotal_dictAdd_ne (totals : List (String × Int)) {c X : String}
    (a : Int) (h : c ≠ X) :
    lookupTotal X (dictAdd totals c a) = lookupTotal X totals := by
  unfold dictAdd
  by_cases hany : totals.any (fun p => p.1 == c) = true
  · rw [if_pos hany, lookupTotal_map_updAmount_ne totals a h]
  · rw [if_neg hany, lookupTotal_append]
    cases hl : lookupTotal X totals with
    | some v => rfl
    | none => simp [lookupTotal, h]

/-- The amounts of the transactions of category `X`, summed in list
order. -/
def sumByCat (txs : List Transaction) (X : String) : Int :=
  ((txs.filter (fun tx => tx.category == X)).map Transaction.amount).sum

/-- Running the `get_category_totals` loop over `txs` starting from any
accumulator: the entry for `X` ends at its initial value (if any) plus
the summed amounts of category `X`, and is created exactly when some
transaction has category `X`. -/
theorem lookupTotal_foldl_dictAdd (txs : List Transaction) (X : String) :
    ∀ totals : List (String × Int),
    lookupTotal X
        (txs.foldl (fun ts tx => dictAdd ts tx.category tx.amount) totals) =
      match lookupTotal X totals with
      | some v => some (v + sumByCat txs X)
      | none =>
        if txs.any (fun tx => tx.category == X) then some (sumByCat txs X)
        else none := by
  induction txs with
  | nil =>
    intro totals
    cases h : lookupTotal X totals <;> simp [h, sumByCat]
  | cons t rest ih =>
    intro totals
    simp only [List.foldl_cons]
    rw [ih]
    by_cases hc : t.category = X
    · rw [hc, lookupTotal_dictAdd_self]
      cases h : lookupTotal X totals with
      | none =>
        simp [h, sumByCat, List.filter_cons, hc, add_assoc]
      | some v =>
        simp [h, sumByCat, List.filter_cons, hc, add_assoc]
    · rw [lookupTotal_dictAdd_ne totals t.amount hc]
      cases h : lookupTotal X totals with
      | none =>
        simp [h, sumByCat, List.filter_cons, List.any_cons, hc]
      | some v =>
        simp [h, sumByCat, List.filter_cons, hc]

/-- The sum of the values stored in the totals dict. -/
def sumValues (l : List (String × Int)) : Int := (l.map Prod.snd).sum

theorem updAmount_fst (c : String) (a : Int) (p : String × Int) :
    (updAmount c a p).1 = p.1 := by
  unfold updAmount
  split <;> rfl

theorem map_fst_map_updAmount (l : List (String × Int)) (c : String)
    (a : Int) : (l.map (updAmount c a)).map Prod.fst = l.map Prod.fst := by
  induction l with
  | nil => rfl
  | cons p ps ih => simp [updAmount_fst, ih]

theorem map_updAmount_of_forall_ne (l : List (String × Int)) {c : String}
    (a : Int) (h : ∀ p ∈ l, p.1 ≠ c) : l.map (updAmount c a) = l := by
  induction l with
  | nil => rfl
  | cons p ps ih =>
    have h1 : p.1 ≠ c := h p (List.mem_cons_self p ps)
    simp [updAmount_of_ne a h1,
      ih fun q hq => h q (List.mem_cons_of_mem p hq)]

/-- With distinct keys, updating the (unique) entry of an existing key
raises the value sum by exactly the amount. -/
theorem sumValues_map_updAmount (l : List (String × Int)) {c : String}
    (a : Int) (hnd : (l.map Prod.fst).Nodup) (hmem : ∃ p ∈ l, p.1 = c) :
    sumValues (l.map (updAmount c a)) = sumValues l + a := by
  induction l with
  | nil => simp at hmem
  | cons p ps ih =>
    simp only [List.map_cons, List.nodup_cons] at hnd
    by_cases hp : p.1 = c
    · have hps : ∀ q ∈ ps, q.1 ≠ c := by
        intro q hq hqc
        exact hnd.1 (by rw [hp, ← hqc]; exact List.mem_map_of_mem Prod.fst hq)
      rw [List.map_cons, map_updAmount_of_forall_ne ps a hps,
        updAmount_of_eq a hp]
      simp [sumValues, add_assoc, add_comm]
    · obtain ⟨q, hq, hqc⟩ := hmem
      rcases List.mem_cons.1 hq with rfl | hq'
      · exact absurd hqc hp
      · rw [List.map_cons, updAmount_of_ne a hp]
        have := ih hnd.2 ⟨q, hq', hqc⟩
        simp only [sumValues, List.map_cons, List.sum_cons] at this ⊢
        rw [this]
        ring

theorem nodup_keys_dictAdd (totals : List (String × Int)) (c : String)
    (a : Int) (h : (totals.map Prod.fst).Nodup) :
    ((dictAdd totals c a).map Prod.fst).Nodup := by
  unfold dictAdd
  by_cases hany : totals.any (fun p => p.1 == c) = true
  · rw [if_pos hany, map_fst_map_updAmount]
    exact h
  · rw [if_neg hany]
    have hall : ∀ p ∈ totals, p.1 ≠ c := by
      intro p hp hpc
      exact hany ((any_key_iff totals c).2 ⟨p, hp, hpc⟩)
    rw [List.map_append]
    refine List.Nodup.append h (by simp) ?_
    intro x hx hx'
    simp only [List.map_cons, List.map_nil, List.mem_singleton] at hx'
    obtain ⟨p, hp, rfl⟩ := List.mem_map.1 hx
    exact hall p hp hx'

/-- With distinct keys, one `dictAdd` raises the value sum by exactly
the amount added. -/
theorem sumValues_dictAdd (totals : List (String × Int)) (c : String)
    (a : Int) (h : (totals.map Prod.fst).Nodup) :
    sumValues (dictAdd totals c a) = sumValues totals + a := by
  unfold dictAdd
  by_cases hany : totals.any (fun p => p.1 == c) = true
  · rw [if_pos hany]
    exact sumValues_map_updAmount totals a h ((any_key_iff totals c).1 hany)
  · rw [if_neg hany]
    simp [sumValues]

/-- Running the `get_category_totals` loop over `txs` adds the sum of
all amounts to the value sum of the accumulator (keys distinct). -/
theorem sumValues_foldl_dictAdd (txs : List Transaction) :
    ∀ totals : List (String × Int), (totals.map Prod.fst).Nodup →
    sumValues
        (txs.foldl (fun ts tx => dictAdd ts tx.category tx.amount) totals) =
      sumValues totals + (txs.map Transaction.amount).sum := by
  induction txs with
  | nil =>
    intro totals _
    simp
  | cons t rest ih =>
    intro totals hnd
    simp only [List.foldl_cons]
    rw [ih _ (nodup_keys_dictAdd totals t.category t.amount hnd),
      sumValues_dictAdd totals t.category t.amount hnd]
    simp [add_assoc]

/-- `run_adds` appends one transaction per item, in order, each dated
`now`. -/
theorem run_adds_transactions (writeOk : Bool) (failDisk : DiskFile)
    (now : String) (items : List (Int × String × String)) :
    ∀ w : World,
    (run_adds writeOk failDisk now w items).tracker.transactions =
      w.tracker.transactions ++
        items.map (fun i => (⟨i.1, i.2.1, i.2.2, now⟩ : Transaction)) := by
  induction items with
  | nil =>
    intro w
    simp [run_adds]
  | cons i rest ih =>
    intro w
    simp only [run_adds, List.foldl_cons] at ih ⊢
    rw [ih]
    simp [FinanceTracker.add_transaction]

/-! ### Claims -/

/-- Claim C1: after a successful `add` or `delete` — one in which the
persistence write goes through — constructing a fresh ledger from the
persistence file (a process restart runs `load_data`) yields a
transaction sequence equal, field for field, to the in-memory sequence
at the time of the call. -/
theorem persistence_consistency (failDisk : DiskFile) (now : String)
    (w : World) (amount : Int) (category description : String)
    (index : Int) :
    FinanceTracker.load_data
        (FinanceTracker.add_transaction true failDisk now w amount category
          description).1.disk =
      (FinanceTracker.add_transaction true failDisk now w amount category
        description).1.tracker.transactions ∧
    ((FinanceTracker.delete_transaction true failDisk w index).2 = true →
      FinanceTracker.load_data
          (FinanceTracker.delete_transaction true failDisk w index).1.disk =
        (FinanceTracker.delete_transaction true failDisk w
          index).1.tracker.transactions) := by
  constructor
  · simp only [FinanceTracker.add_transaction]
    exact load_data_save_data _ _
  · intro h
    unfold FinanceTracker.delete_transaction at h ⊢
    by_cases hb : 0 ≤ index ∧ index < (w.tracker.transactions.length : Int)
    · rw [if_pos hb]
      exact load_data_save_data (w.tracker.transactions.eraseIdx index.toNat)
        failDisk
    · rw [if_neg hb] at h
      exact absurd h (by simp)

/-- Witness for C1 at a concrete one-element ledger and `delete 0`. -/
theorem persistence_consistency_witness :
    FinanceTracker.load_data
        (FinanceTracker.delete_transaction true DiskFile.unparsable
          ⟨⟨[⟨5, "Food", "x", "2025-01-01"⟩]⟩, DiskFile.missing⟩ 0).1.disk =
      (FinanceTracker.delete_transaction true DiskFile.unparsable
        ⟨⟨[⟨5, "Food", "x", "2025-01-01"⟩]⟩, DiskFile.missing⟩
        0).1.tracker.transactions :=
  (persistence_consistency DiskFile.unparsable "2025-01-02"
    ⟨⟨[⟨5, "Food", "x", "2025-01-01"⟩]⟩, DiskFile.missing⟩ 1 "c" "d" 0).2
    (by decide)

/-- Claim C2, counterexample: the claim says a failed storage write
makes `add` report failure.  In the code `save_data` catches its own
exception, so `add_transaction` returns `True` even when the write
fails (`writeOk = false`, here leaving a truncated unparsable file):
its result is not `false`. -/
theorem add_failure_counterexample :
    ¬ ((FinanceTracker.add_transaction false DiskFile.unparsable
        "2025-01-01" ⟨⟨[]⟩, DiskFile.missing⟩ 5000 "Salary" "pay").2 =
      false) := by
  decide

/-- Claim C2, amended: `add` always reports success — also when the
storage write raises, because `save_data` swallows the exception and
only prints it.  The transaction is appended in memory in every case,
never rolled back, so after a failed write memory and disk diverge;
after a successful write the file holds exactly the in-memory
sequence. -/
theorem add_transaction_result (now : String) (w : World) (amount : Int)
    (category description : String) :
    (∀ writeOk failDisk,
      (FinanceTracker.add_transaction writeOk failDisk now w amount
        category description).2 = true) ∧
    (∀ writeOk failDisk,
      (FinanceTracker.add_transaction writeOk failDisk now w amount
          category description).1.tracker.transactions =
        w.tracker.transactions ++
          [⟨amount, category, description, now⟩]) ∧
    (∀ failDisk,
      FinanceTracker.load_data
          (FinanceTracker.add_transaction true failDisk now w amount
            category description).1.disk =
        w.tracker.transactions ++ [⟨amount, category, description, now⟩]) := by
  refine ⟨fun _ _ => rfl, fun _ _ => rfl, fun failDisk => ?_⟩
  simp only [FinanceTracker.add_transaction]
  exact load_data_save_data _ _

/-- Claim C3: `delete(index)` fails without any mutation for an
out-of-range index and succeeds otherwise, removing exactly the entry
at `index` in insertion order and shrinking the length by one. -/
theorem delete_transaction_bounds (writeOk : Bool) (failDisk : DiskFile)
    (w : World) (index : Int) :
    ((index < 0 ∨ (w.tracker.transactions.length : Int) ≤ index) →
      FinanceTracker.delete_transaction writeOk failDisk w index =
        (w, false)) ∧
    (0 ≤ index → index < (w.tracker.transactions.length : Int) →
      (FinanceTracker.delete_transaction writeOk failDisk w index).2 =
        true ∧
      (FinanceTracker.delete_transaction writeOk failDisk w
          index).1.tracker.transactions =
        w.tracker.transactions.take index.toNat ++
          w.tracker.transactions.drop (index.toNat + 1) ∧
      (FinanceTracker.delete_transaction writeOk failDisk w
          index).1.tracker.transactions.length =
        w.tracker.transactions.length - 1) := by
  constructor
  · intro h
    unfold FinanceTracker.delete_transaction
    rw [if_neg]
    intro hb
    rcases h with h | h
    · omega
    · omega
  · intro h0 hlen
    unfold FinanceTracker.delete_transaction
    rw [if_pos ⟨h0, hlen⟩]
    have hidx : index.toNat < w.tracker.transactions.length := by omega
    refine ⟨rfl, ?_, ?_⟩
    · exact List.eraseIdx_eq_take_drop_succ _ _
    · rw [List.length_eraseIdx]
      simp [hidx]

/-- Witness for C3: out-of-range and in-range deletion on a concrete
one-element ledger. -/
theorem delete_transaction_bounds_witness :
    FinanceTracker.delete_transaction true DiskFile.unparsable
        ⟨⟨[⟨5, "Food", "x", "2025-01-01"⟩]⟩, DiskFile.missing⟩ 3 =
      (⟨⟨[⟨5, "Food", "x", "2025-01-01"⟩]⟩, DiskFile.missing⟩, false) ∧
    (FinanceTracker.delete_transaction true DiskFile.unparsable
        ⟨⟨[⟨5, "Food", "x", "2025-01-01"⟩]⟩, DiskFile.missing⟩ 0).2 = true :=
  ⟨(delete_transaction_bounds true DiskFile.unparsable
      ⟨⟨[⟨5, "Food", "x", "2025-01-01"⟩]⟩, DiskFile.missing⟩ 3).1
      (Or.inr (by decide)),
   ((delete_transaction_bounds true DiskFile.unparsable
      ⟨⟨[⟨5, "Food", "x", "2025-01-01"⟩]⟩, DiskFile.missing⟩ 0).2
      (by decide) (by decide)).1⟩

/-- Claim C4: starting from an empty ledger, after `add(a1) ... add(an)`
(any categories and descriptions, any write outcomes), `get_balance`
returns exactly the signed sum `a1 + ... + an`. -/
theorem balance_additivity (writeOk : Bool) (failDisk : DiskFile)
    (now : String) (disk : DiskFile)
    (items : List (Int × String × String)) :
    (run_adds writeOk failDisk now ⟨⟨[]⟩, disk⟩ items).tracker.get_balance =
      (items.map (fun i => i.1)).sum := by
  unfold FinanceTracker.get_balance
  rw [run_adds_transactions]
  simp [List.map_map]
  rfl

/-- Claim C5: deserialisation undoes serialisation on every field:
`from_dict (to_dict t) = t` for every transaction `t`. -/
theorem serialize_roundtrip (t : Transaction) :
    Transaction.from_dict (Transaction.to_dict t) = some t := rfl

/-- Claim C6: `get_category_totals` maps a category `X` that occurs in
the ledger to the sum of the amounts of exactly the transactions with
that category, and has no entry for a category that does not occur. -/
theorem category_aggregation (t : FinanceTracker) (X : String) :
    ((∃ tx ∈ t.transactions, tx.category = X) →
      lookupTotal X t.get_category_totals =
        some (((t.transactions.filter
          (fun tx => tx.category == X)).map Transaction.amount).sum)) ∧
    ((∀ tx ∈ t.transactions, tx.category ≠ X) →
      lookupTotal X t.get_category_totals = none) := by
  constructor
  · intro h
    have hany : t.transactions.any (fun tx => tx.category == X) = true := by
      simpa using h
    rw [FinanceTracker.get_category_totals, lookupTotal_foldl_dictAdd]
    simp [lookupTotal, hany, sumByCat]
  · intro h
    have hany : t.transactions.any (fun tx => tx.category == X) = false := by
      simpa using h
    rw [FinanceTracker.get_category_totals, lookupTotal_foldl_dictAdd]
    simp [lookupTotal, hany]

/-- Witness for C6: a category present in a concrete ledger gets the
summed amount, an absent one gets no entry. -/
theorem category_aggregation_witness :
    lookupTotal "Food"
        (FinanceTracker.get_category_totals
          ⟨[⟨-3, "Food", "a", "2025-01-01"⟩, ⟨7, "Food", "b", "2025-01-02"⟩]⟩) =
      some 4 ∧
    lookupTotal "Rent"
        (FinanceTracker.get_category_totals
          ⟨[⟨-3, "Food", "a", "2025-01-01"⟩, ⟨7, "Food", "b", "2025-01-02"⟩]⟩) =
      none := by
  constructor
  · have h := (category_aggregation
      ⟨[⟨-3, "Food", "a", "2025-01-01"⟩, ⟨7, "Food", "b", "2025-01-02"⟩]⟩
      "Food").1 ⟨⟨-3, "Food", "a", "2025-01-01"⟩, by decide, rfl⟩
    exact h.trans (by decide)
  · exact (category_aggregation
      ⟨[⟨-3, "Food", "a", "2025-01-01"⟩, ⟨7, "Food", "b", "2025-01-02"⟩]⟩
      "Rent").2 (by decide)

/-- A record missing any one of the four required keys fails to
deserialise (the `KeyError` of `from_dict`). -/
theorem from_dict_eq_none (r : Record)
    (h : r.amount? = none ∨ r.category? = none ∨ r.description? = none ∨
      r.date? = none) :
    Transaction.from_dict r = none := by
  obtain ⟨a?, c?, d?, dt?⟩ := r
  cases a? with
  | none => rfl
  | some a =>
    cases c? with
    | none => rfl
    | some c =>
      cases d? with
      | none => rfl
      | some d =>
        cases dt? with
        | none => rfl
        | some dt => simp at h

/-- If any record of the file fails to deserialise, the whole list
comprehension of `load_data` raises. -/
theorem parse_records_eq_none {recs : List Record} {r : Record}
    (hmem : r ∈ recs) (hfd : Transaction.from_dict r = none) :
    parse_records recs = none := by
  induction recs with
  | nil => simp at hmem
  | cons s rs ih =>
    rcases List.mem_cons.1 hmem with rfl | hmem'
    · simp [parse_records, hfd]
    · cases hfs : Transaction.from_dict s <;>
        simp [parse_records, hfs, ih hmem']

/-- Claim C7: a persisted file that is unparsable, or parses to a list
containing — at any position — a record missing any required key, loads
as an empty ledger (the exception is caught), and a subsequent `add` on
that ledger succeeds and appends normally. -/
theorem corrupt_file_recovery (recs : List Record) (r : Record)
    (hmem : r ∈ recs)
    (h : r.amount? = none ∨ r.category? = none ∨ r.description? = none ∨
      r.date? = none)
    (writeOk : Bool) (failDisk : DiskFile) (now : String) (disk : DiskFile)
    (amount : Int) (category description : String) :
    FinanceTracker.load_data (DiskFile.records recs) = [] ∧
    FinanceTracker.load_data DiskFile.unparsable = [] ∧
    (FinanceTracker.add_transaction writeOk failDisk now
        ⟨⟨FinanceTracker.load_data (DiskFile.records recs)⟩, disk⟩ amount
        category description).2 = true ∧
    (FinanceTracker.add_transaction writeOk failDisk now
        ⟨⟨FinanceTracker.load_data (DiskFile.records recs)⟩, disk⟩ amount
        category description).1.tracker.transactions =
      [⟨amount, category, description, now⟩] := by
  have hl : FinanceTracker.load_data (DiskFile.records recs) = [] := by
    simp [FinanceTracker.load_data,
      parse_records_eq_none hmem (from_dict_eq_none r h)]
  refine ⟨hl, rfl, rfl, ?_⟩
  rw [hl]
  rfl

/-- Witness for C7 at a concrete two-record file whose second record is
missing the `category` key. -/
theorem corrupt_file_recovery_witness :
    FinanceTracker.load_data (DiskFile.records
        [⟨some 1, some "A", some "ok", some "2025-01-01"⟩,
         ⟨some 2, none, some "bad", some "2025-01-02"⟩]) = [] ∧
    (FinanceTracker.add_transaction true DiskFile.unparsable "2025-01-03"
        ⟨⟨FinanceTracker.load_data (DiskFile.records
          [⟨some 1, some "A", some "ok", some "2025-01-01"⟩,
           ⟨some 2, none, some "bad", some "2025-01-02"⟩])⟩,
          DiskFile.missing⟩ 7 "Food" "lunch").2 = true :=
  ⟨(corrupt_file_recovery
      [⟨some 1, some "A", some "ok", some "2025-01-01"⟩,
       ⟨some 2, none, some "bad", some "2025-01-02"⟩]
      ⟨some 2, none, some "bad", some "2025-01-02"⟩ (by decide)
      (Or.inr (Or.inl rfl)) true DiskFile.unparsable "2025-01-03"
      DiskFile.missing 7 "Food" "lunch").1,
   (corrupt_file_recovery
      [⟨some 1, some "A", some "ok", some "2025-01-01"⟩,
       ⟨some 2, none, some "bad", some "2025-01-02"⟩]
      ⟨some 2, none, some "bad", some "2025-01-02"⟩ (by decide)
      (Or.inr (Or.inl rfl)) true DiskFile.unparsable "2025-01-03"
      DiskFile.missing 7 "Food" "lunch").2.2.1⟩

/-- Claim C8: the concrete scenario — from an empty ledger,
`add(5000, Salary, March pay)` then `add(-1200, Food, Groceries)` gives
balance `3800` and category totals `Salary ↦ 5000, Food ↦ -1200`; then
`delete(0)` succeeds, removes the salary entry, and the balance becomes
`-1200`. -/
theorem concrete_scenario :
    (FinanceTracker.add_transaction true DiskFile.unparsable "2024-03-02"
        (FinanceTracker.add_transaction true DiskFile.unparsable "2024-03-01"
          ⟨⟨[]⟩, DiskFile.missing⟩ 5000 "Salary" "March pay").1
        (-1200) "Food" "Groceries").1.tracker.get_balance = 3800 ∧
    (FinanceTracker.add_transaction true DiskFile.unparsable "2024-03-02"
        (FinanceTracker.add_transaction true DiskFile.unparsable "2024-03-01"
          ⟨⟨[]⟩, DiskFile.missing⟩ 5000 "Salary" "March pay").1
        (-1200) "Food" "Groceries").1.tracker.get_category_totals =
      [("Salary", 5000), ("Food", -1200)] ∧
    (FinanceTracker.delete_transaction true DiskFile.unparsable
        (FinanceTracker.add_transaction true DiskFile.unparsable "2024-03-02"
          (FinanceTracker.add_transaction true DiskFile.unparsable "2024-03-01"
            ⟨⟨[]⟩, DiskFile.missing⟩ 5000 "Salary" "March pay").1
          (-1200) "Food" "Groceries").1 0).2 = true ∧
    (FinanceTracker.delete_transaction true DiskFile.unparsable
        (FinanceTracker.add_transaction true DiskFile.unparsable "2024-03-02"
          (FinanceTracker.add_transaction true DiskFile.unparsable "2024-03-01"
            ⟨⟨[]⟩, DiskFile.missing⟩ 5000 "Salary" "March pay").1
          (-1200) "Food" "Groceries").1 0).1.tracker.transactions =
      [⟨-1200, "Food", "Groceries", "2024-03-02"⟩] ∧
    (FinanceTracker.delete_transaction true DiskFile.unparsable
        (FinanceTracker.add_transaction true DiskFile.unparsable "2024-03-02"
          (FinanceTracker.add_transaction true DiskFile.unparsable "2024-03-01"
            ⟨⟨[]⟩, DiskFile.missing⟩ 5000 "Salary" "March pay").1
          (-1200) "Food" "Groceries").1 0).1.tracker.get_balance = -1200 := by
  refine ⟨?_, ?_, ?_, ?_, ?_⟩ <;> decide

/-- Claim C9: `get_transactions_by_category c` is exactly the
subsequence of the stored transactions whose category equals `c`: it is
a sublist (so in original order), every element has category `c`, and
it keeps every transaction of category `c` with its multiplicity. -/
theorem by_category_exact (t : FinanceTracker) (c : String) :
    (t.get_transactions_by_category c).Sublist t.transactions ∧
    (∀ tx ∈ t.get_transactions_by_category c, tx.category = c) ∧
    (∀ tx : Transaction, tx.category = c →
      (t.get_transactions_by_category c).count tx =
        t.transactions.count tx) := by
  refine ⟨List.filter_sublist _, ?_, ?_⟩
  · intro tx htx
    have h := List.of_mem_filter htx
    simpa using h
  · intro tx htx
    unfold FinanceTracker.get_transactions_by_category
    rw [List.count_filter]
    simp [htx]

/-- Witness for C9 on a concrete two-element ledger. -/
theorem by_category_exact_witness :
    (⟨5, "Food", "x", "2025-01-01"⟩ : Transaction).category = "Food" ∧
    (FinanceTracker.get_transactions_by_category
        ⟨[⟨5, "Food", "x", "2025-01-01"⟩, ⟨9, "Rent", "y", "2025-01-02"⟩]⟩
        "Food").count ⟨5, "Food", "x", "2025-01-01"⟩ =
      ([⟨5, "Food", "x", "2025-01-01"⟩, ⟨9, "Rent", "y", "2025-01-02"⟩] :
        List Transaction).count ⟨5, "Food", "x", "2025-01-01"⟩ :=
  ⟨(by_category_exact
      ⟨[⟨5, "Food", "x", "2025-01-01"⟩, ⟨9, "Rent", "y", "2025-01-02"⟩]⟩
      "Food").2.1 ⟨5, "Food", "x", "2025-01-01"⟩ (by decide),
   (by_category_exact
      ⟨[⟨5, "Food", "x", "2025-01-01"⟩, ⟨9, "Rent", "y", "2025-01-02"⟩]⟩
      "Food").2.2 ⟨5, "Food", "x", "2025-01-01"⟩ rfl⟩

/-- Claim C10: summing the values of `get_category_totals` recovers
`get_balance`: the per-category aggregation partitions the
transactions. -/
theorem totals_sum_eq_balance (t : FinanceTracker) :
    sumValues t.get_category_totals = t.get_balance := by
  unfold FinanceTracker.get_category_totals FinanceTracker.get_balance
  rw [sumValues_foldl_dictAdd t.transactions [] (by simp)]
  simp [sumValues]
